import Mathlib

/-!
# qls: the AST parser session (`AstParser`) and its holder (`AstParserHolder`)

A shallow embedding of `src/AstParser.cpp` and `src/AstParserHolder.cpp`.

* The flex/bison generated scanner and grammar (`astlex_init`, `astset_lineno`,
  `astparse`, `astlex_destroy`, declared in `AstParserSupport.h`) are not part of
  the sources.  Scanner states live in an explicit `World`, addressed by handle
  (`yyscan_t`); the grammar pass itself is a parameter.
* `AstParser.h` is not part of the sources either: the members of the session
  that `AstParserHolder` forwards to are parameters (`AstParserOps`).
* Every call on a scanner handle appends an `Event` to the world's log, so that
  the order of the calls made by `AstParser::parse` can be stated.
-/

namespace Qls

/-! ## Data model -/

/-- A syntax error record: message text and source range. -/
structure ASTParseError where
  message : String
  startLine : Int
  startCol : Int
  endLine : Int
  endCol : Int

/-- A syntax tree node: kind, source range and the ordered, owned children. -/
inductive ASTNode where
  | mk (kind : Nat) (startLine startCol endLine endCol : Int) (children : List ASTNode)

/-- A syntax tree: one root node, or empty. -/
structure ASTTree where
  root : Option ASTNode

/-- Modelled from the spec: the data members of `class AstParser` (its declaration,
`AstParser.h`, is missing).  A parse session holds the produced tree (an owning
reference, empty when no tree is held) and the ordered list of parse errors. -/
structure AstParser where
  tree : Option ASTTree
  errors : List ASTParseError

/-- Modelled from the spec: the state of one reentrant scanner (`struct yyguts_t` of
the generated lexer, which is missing): the current line number and the input
buffer the scanner reads, `none` while no input has been handed to it. -/
structure YYGuts where
  yylineno : Int
  buffer : Option String

/-- The calls made on scanner handles, in the order they happen. -/
inductive Event where
  | lexInit (lexer : Nat)
  | setLineno (n : Int) (lexer : Nat)
  | grammar (lexer : Nat) (handed : YYGuts) (rc : Int) (left : YYGuts)
  | lexDestroy (lexer : Nat)

/-- The scanner side of the process state: the live scanner states by handle
(`yyscan_t`), and the log of the calls made so far. -/
structure World where
  scanners : List (Nat × YYGuts)
  log : List Event

/-- The generated artefacts the parser links against (`AstParserSupport.h`), taken
as parameters: the state a newly initialised scanner is in, and the grammar pass,
which gets the scanner state and returns its status and the state it leaves. -/
structure AstParserSupport where
  yy_init_globals : YYGuts
  astparse : YYGuts → Int × YYGuts

/-- A `std::string`: its bytes, which may include NUL. -/
structure StdString where
  bytes : String

/-- The value of `std::string::c_str()` read as a C string: the bytes before the first NUL. -/
def StdString.c_str (s : StdString) : String :=
  String.mk (s.bytes.data.takeWhile (fun c => c ≠ Char.ofNat 0))

/-! ## The scanner interface -/

/-- A handle that no live scanner uses (what the allocation in `astlex_init` returns). -/
def World.fresh (w : World) : Nat :=
  (w.scanners.map Prod.fst).foldr max 0 + 1

/-- The live scanner handles. -/
def World.live (w : World) : List Nat :=
  w.scanners.map Prod.fst

/-- Modelled from the spec: `astlex_init(&lexer)` of the missing generated lexer creates
one scanner state and stores its handle in `lexer`. -/
def astlex_init (g : AstParserSupport) (w : World) : Nat × World :=
  let lexer := w.fresh
  (lexer, { scanners := (lexer, g.yy_init_globals) :: w.scanners,
            log := w.log ++ [Event.lexInit lexer] })

/-- Modelled from the spec: `astset_lineno(n, lexer)` of the missing generated lexer sets
the line number of the scanner `lexer`. -/
def astset_lineno (n : Int) (lexer : Nat) (w : World) : World :=
  { scanners := w.scanners.map
      (fun e => if e.1 = lexer then (e.1, { e.2 with yylineno := n }) else e),
    log := w.log ++ [Event.setLineno n lexer] }

/-- The call `astparse(lexer)`: the grammar pass runs on the state of the scanner
`lexer` and leaves its state there.  A handle that is not live has no state to
run on (`none`). -/
def astparse (g : AstParserSupport) (lexer : Nat) (w : World) : Option (Int × World) :=
  match w.scanners.lookup lexer with
  | none => none
  | some st =>
    let out := g.astparse st
    some (out.1,
      { scanners := w.scanners.map (fun e => if e.1 = lexer then (e.1, out.2) else e),
        log := w.log ++ [Event.grammar lexer st out.1 out.2] })

/-- Modelled from the spec: `astlex_destroy(lexer)` of the missing generated lexer
destroys the scanner state `lexer`. -/
def astlex_destroy (lexer : Nat) (w : World) : World :=
  { scanners := w.scanners.filter (fun e => e.1 ≠ lexer),
    log := w.log ++ [Event.lexDestroy lexer] }

/-! ## `AstParser::parse` -/

/-- The method `int AstParser::parse(const char* filename)`. -/
def AstParser.parse (g : AstParserSupport) (self : AstParser) (filename : String)
    (w : World) : Option (Int × AstParser × World) :=
  let (lexer, w1) := astlex_init g w
  -- ast_scan_string(code, lexer) is commented out in the source
  let w2 := astset_lineno 1 lexer w1
  match astparse g lexer w2 with
  | none => none
  | some (_, w3) =>
    let w4 := astlex_destroy lexer w3
    some (0, self, w4)

/-- The method `int AstParser::parse(std::string& filename)`. -/
def AstParser.parseS (g : AstParserSupport) (self : AstParser) (filename : StdString)
    (w : World) : Option (Int × AstParser × World) :=
  AstParser.parse g self filename.c_str w

/-- The events logged between the world `w` and a later world `w'`. -/
def World.since (w w' : World) : List Event :=
  w'.log.drop w.log.length

/-- The calls of the grammar pass, in order: the scanner state it was handed, the
status it reported, and the scanner state it left. -/
def grammarCalls (l : List Event) : List (YYGuts × Int × YYGuts) :=
  l.filterMap (fun e => match e with
    | Event.grammar _ handed rc left => some (handed, rc, left)
    | _ => none)

/-- The scanner states handed to the grammar pass, in order. -/
def handedStates (l : List Event) : List YYGuts :=
  (grammarCalls l).map (fun c => c.1)

/-- The statuses reported by the grammar pass, in order. -/
def grammarStatuses (l : List Event) : List Int :=
  (grammarCalls l).map (fun c => c.2.1)

/-! ## The session's members that the sources do not contain -/

/-- The misuse of an accessor that is signalled to the caller. -/
inductive UsageError where
  | indexOutOfRange (index count : Nat)

/-- Modelled from the spec: the constructor of `AstParser` (`AstParser.h` is missing).
A new session holds no tree and no errors. -/
def AstParser.new : AstParser :=
  { tree := none, errors := [] }

/-- The root node of the session's tree, `none` when the tree is empty or absent. -/
def AstParser.root (self : AstParser) : Option ASTNode :=
  self.tree.bind ASTTree.root

/-- Modelled from the spec: `AstParser::getTreePtr` (missing), a non-owning borrow of the
session's tree. -/
def AstParser.getTreePtr (self : AstParser) : Option ASTTree :=
  self.tree

/-- Modelled from the spec: `AstParser::releaseTree` (missing) transfers the tree to the
caller and leaves the session's reference empty. -/
def AstParser.releaseTree (self : AstParser) : Option ASTTree × AstParser :=
  (self.tree, { self with tree := none })

/-- Modelled from the spec: `AstParser::getErrorCount` (missing), the length of the
accumulated error list. -/
def AstParser.getErrorCount (self : AstParser) : Nat :=
  self.errors.length

/-- Modelled from the spec: `AstParser::getError` (missing) gives read access to the
error list; an index out of range is an error condition, signalled to the caller,
not clamped. -/
def AstParser.getError (self : AstParser) (index : Nat) : Except UsageError ASTParseError :=
  match self.errors.get? index with
  | some e => Except.ok e
  | none => Except.error (UsageError.indexOutOfRange index self.errors.length)

/-- Whether the point `(line, col)` lies in the range of a node: start inclusive, end
exclusive, in lexicographic order. -/
def ASTNode.contains : ASTNode → Int → Int → Bool
  | ASTNode.mk _ sl sc el ec _, line, col =>
    (decide (sl < line) || (decide (sl = line) && decide (sc ≤ col))) &&
    (decide (line < el) || (decide (line = el) && decide (col < ec)))

mutual
/-- Modelled from the spec: the position lookup of §4.3 (missing from the sources): the
deepest node whose range contains the point, descending into the last child that
contains it. -/
def ASTNode.findNode : ASTNode → Int → Int → Option ASTNode
  | ASTNode.mk k sl sc el ec cs, line, col =>
    if (ASTNode.mk k sl sc el ec cs).contains line col then
      match ASTNode.findNodeIn cs line col with
      | some n => some n
      | none => some (ASTNode.mk k sl sc el ec cs)
    else none
/-- The lookup among siblings: the last one that contains the point wins. -/
def ASTNode.findNodeIn : List ASTNode → Int → Int → Option ASTNode
  | [], _, _ => none
  | c :: cs, line, col =>
    match ASTNode.findNodeIn cs line col with
    | some n => some n
    | none => ASTNode.findNode c line col
end

/-- Modelled from the spec: `AstParser::findNode` (missing): `none` when the tree is empty
or the point lies outside the root's range. -/
def AstParser.findNode (self : AstParser) (line col : Int) : Option ASTNode :=
  match self.root with
  | none => none
  | some r => r.findNode line col

/-! ## `AstParserHolder` -/

/-- A member function of `AstParser`: from the session and the scanner world to a
result, the session after, and the world after. -/
abbrev Method (α : Type) : Type :=
  AstParser → World → α × AstParser × World

/-- The members of `class AstParser` that `AstParserHolder.cpp` calls.  Their
definitions are not part of the sources (neither is `AstParser.h`), so they are
parameters.  `ctor` is the state the default constructor leaves. -/
structure AstParserOps where
  ctor : AstParser
  parseFile : String → Method Int
  parseFileS : StdString → Method Int
  parseString : String → Method Int
  parseStringS : StdString → Method Int
  findNode : Int → Int → Method (Option ASTNode)
  getTreePtr : Method (Option ASTTree)
  releaseTree : Method (Option ASTTree)
  getErrorCount : AstParser → Nat
  getError : Nat → Method (Except UsageError ASTParseError)

/-- The process state a holder lives in: the `AstParser` objects on the heap, by
address, and the scanner world. -/
structure Memory where
  heap : List (Nat × AstParser)
  world : World

/-- The class `AstParserHolder`: its one data member, `AstParser* parser`. -/
structure AstParserHolder where
  parser : Nat

/-- The addresses of the sessions that are alive. -/
def Memory.sessions (m : Memory) : List Nat :=
  m.heap.map Prod.fst

/-- An address at which no session lives (what `new` returns); never 0. -/
def Memory.fresh (m : Memory) : Nat :=
  (m.heap.map Prod.fst).foldr max 0 + 1

/-- The memory after the session at `p` has become `s` and the world `w`. -/
def Memory.store (m : Memory) (p : Nat) (s : AstParser) (w : World) : Memory :=
  { heap := m.heap.map (fun e => if e.1 = p then (e.1, s) else e), world := w }

/-- The call `p->method(...)`: runs a member function on the session at address `p`.
There is no result when no session lives at `p`. -/
def Memory.arrow {α : Type} (m : Memory) (p : Nat) (method : Method α) : Option (α × Memory) :=
  match m.heap.lookup p with
  | none => none
  | some s =>
    let out := method s m.world
    some (out.1, m.store p out.2.1 out.2.2)

/-- The constructor `AstParserHolder::AstParserHolder()`: `parser = new AstParser`. -/
def AstParserHolder.new (ops : AstParserOps) (m : Memory) : AstParserHolder × Memory :=
  let p := m.fresh
  ({ parser := p }, { m with heap := (p, ops.ctor) :: m.heap })

/-- The destructor `AstParserHolder::~AstParserHolder()`: `delete parser`. -/
def AstParserHolder.delete (self : AstParserHolder) (m : Memory) : Memory :=
  { m with heap := m.heap.filter (fun e => e.1 ≠ self.parser) }

/-- The method `int AstParserHolder::parseFile(const char* filename)`. -/
def AstParserHolder.parseFile (ops : AstParserOps) (self : AstParserHolder)
    (filename : String) (m : Memory) : Option (Int × AstParserHolder × Memory) :=
  (m.arrow self.parser (ops.parseFile filename)).map (fun r => (r.1, self, r.2))

/-- The method `int AstParserHolder::parseFile(std::string& filename)`. -/
def AstParserHolder.parseFileS (ops : AstParserOps) (self : AstParserHolder)
    (filename : StdString) (m : Memory) : Option (Int × AstParserHolder × Memory) :=
  (m.arrow self.parser (ops.parseFileS filename)).map (fun r => (r.1, self, r.2))

/-- The method `int AstParserHolder::parseString(const char* filename)`. -/
def AstParserHolder.parseString (ops : AstParserOps) (self : AstParserHolder)
    (filename : String) (m : Memory) : Option (Int × AstParserHolder × Memory) :=
  (m.arrow self.parser (ops.parseString filename)).map (fun r => (r.1, self, r.2))

/-- The method `int AstParserHolder::parseString(std::string& filename)`. -/
def AstParserHolder.parseStringS (ops : AstParserOps) (self : AstParserHolder)
    (filename : StdString) (m : Memory) : Option (Int × AstParserHolder × Memory) :=
  (m.arrow self.parser (ops.parseStringS filename)).map (fun r => (r.1, self, r.2))

/-- The method `ASTNode* AstParserHolder::findNode(int line, int col)`. -/
def AstParserHolder.findNode (ops : AstParserOps) (self : AstParserHolder)
    (line col : Int) (m : Memory) : Option (Option ASTNode × AstParserHolder × Memory) :=
  (m.arrow self.parser (ops.findNode line col)).map (fun r => (r.1, self, r.2))

/-- The method `ASTTree* AstParserHolder::getTreePtr()`. -/
def AstParserHolder.getTreePtr (ops : AstParserOps) (self : AstParserHolder)
    (m : Memory) : Option (Option ASTTree × AstParserHolder × Memory) :=
  (m.arrow self.parser ops.getTreePtr).map (fun r => (r.1, self, r.2))

/-- The method `ASTTree* AstParserHolder::releaseTree()`. -/
def AstParserHolder.releaseTree (ops : AstParserOps) (self : AstParserHolder)
    (m : Memory) : Option (Option ASTTree × AstParserHolder × Memory) :=
  (m.arrow self.parser ops.releaseTree).map (fun r => (r.1, self, r.2))

/-- The method `size_t AstParserHolder::getErrorCount() const`. -/
def AstParserHolder.getErrorCount (ops : AstParserOps) (self : AstParserHolder)
    (m : Memory) : Option Nat :=
  (m.heap.lookup self.parser).map ops.getErrorCount

/-- The method `ASTParseError* AstParserHolder::getError(unsigned int index)`. -/
def AstParserHolder.getError (ops : AstParserOps) (self : AstParserHolder)
    (index : Nat) (m : Memory) :
    Option (Except UsageError ASTParseError × AstParserHolder × Memory) :=
  (m.arrow self.parser (ops.getError index)).map (fun r => (r.1, self, r.2))

/-- One call of a public member function of `AstParserHolder`, with its arguments. -/
inductive HolderCall where
  | parseFile (filename : String)
  | parseFileS (filename : StdString)
  | parseString (filename : String)
  | parseStringS (filename : StdString)
  | findNode (line col : Int)
  | getTreePtr
  | releaseTree
  | getErrorCount
  | getError (index : Nat)

/-- Runs one call on a holder, dropping the returned value: `none` when the call
dereferences an address at which no session lives. -/
def AstParserHolder.call (ops : AstParserOps) (self : AstParserHolder) (m : Memory) :
    HolderCall → Option (AstParserHolder × Memory)
  | HolderCall.parseFile f => (self.parseFile ops f m).map Prod.snd
  | HolderCall.parseFileS f => (self.parseFileS ops f m).map Prod.snd
  | HolderCall.parseString f => (self.parseString ops f m).map Prod.snd
  | HolderCall.parseStringS f => (self.parseStringS ops f m).map Prod.snd
  | HolderCall.findNode line col => (self.findNode ops line col m).map Prod.snd
  | HolderCall.getTreePtr => (self.getTreePtr ops m).map Prod.snd
  | HolderCall.releaseTree => (self.releaseTree ops m).map Prod.snd
  | HolderCall.getErrorCount => (self.getErrorCount ops m).map (fun _ => (self, m))
  | HolderCall.getError index => (self.getError ops index m).map Prod.snd

/-- Runs a sequence of calls on a holder, in order. -/
def AstParserHolder.run (ops : AstParserOps) (self : AstParserHolder) (m : Memory) :
    List HolderCall → Option (AstParserHolder × Memory)
  | [] => some (self, m)
  | c :: cs =>
    match self.call ops m c with
    | none => none
    | some (h, m1) => AstParserHolder.run ops h m1 cs

/-- Runs `AstParser::parse` on each of the sources in order, on one session. -/
def AstParser.parseAll (g : AstParserSupport) (self : AstParser) (w : World) :
    List String → Option (AstParser × World)
  | [] => some (self, w)
  | f :: fs =>
    match self.parse g f w with
    | none => none
    | some (_, s1, w1) => AstParser.parseAll g s1 w1 fs

/-- Modelled from the spec: a session whose missing members are those the spec describes.
`parseFile` and `parseString` run `AstParser::parse` on their argument (which always
returns, see `parse_eq`); the accessors are the ones modelled above. -/
def AstParserOps.ofSupport (g : AstParserSupport) : AstParserOps :=
  { ctor := AstParser.new
    parseFile := fun f s w => (s.parse g f w).getD (0, s, w)
    parseFileS := fun f s w => (s.parseS g f w).getD (0, s, w)
    parseString := fun f s w => (s.parse g f w).getD (0, s, w)
    parseStringS := fun f s w => (s.parseS g f w).getD (0, s, w)
    findNode := fun line col s w => (s.findNode line col, s, w)
    getTreePtr := fun s w => (s.getTreePtr, s, w)
    releaseTree := fun s w => (s.releaseTree.1, s.releaseTree.2, w)
    getErrorCount := AstParser.getErrorCount
    getError := fun index s w => (s.getError index, s, w) }

/-- A grammar pass that reports failure (status 1) on every input, on a scanner that
starts at line 0 with no input. -/
def failingSupport : AstParserSupport :=
  { yy_init_globals := { yylineno := 0, buffer := none }
    astparse := fun st => (1, st) }

/-- The empty world: no live scanner, nothing logged. -/
def World.empty : World :=
  { scanners := [], log := [] }

/-! ## Auxiliary facts about handles and addresses -/

theorem le_foldr_max_of_mem (l : List Nat) (x : Nat) (h : x ∈ l) : x ≤ l.foldr max 0 := by
  induction l with
  | nil => cases h
  | cons a t ih =>
    simp only [List.foldr_cons]
    rcases List.mem_cons.mp h with rfl | h1
    · exact le_max_left _ _
    · exact le_trans (ih h1) (le_max_right _ _)

theorem fresh_not_mem {α : Type} (l : List (Nat × α)) :
    (l.map Prod.fst).foldr max 0 + 1 ∉ l.map Prod.fst := by
  intro h
  have := le_foldr_max_of_mem _ _ h
  omega

theorem filter_ne_of_not_mem {α : Type} (l : List (Nat × α)) (p : Nat)
    (h : p ∉ l.map Prod.fst) : l.filter (fun e => e.1 ≠ p) = l := by
  induction l with
  | nil => rfl
  | cons a t ih =>
    simp only [List.map_cons, List.mem_cons, not_or] at h
    have ha : a.1 ≠ p := fun e => h.1 e.symm
    rw [List.filter_cons_of_pos (by simpa using ha), ih h.2]

theorem map_update_of_not_mem {α : Type} (l : List (Nat × α)) (p : Nat) (f : Nat × α → Nat × α)
    (h : p ∉ l.map Prod.fst) : l.map (fun e => if e.1 = p then f e else e) = l := by
  induction l with
  | nil => rfl
  | cons a t ih =>
    simp only [List.map_cons, List.mem_cons, not_or] at h
    have ha : a.1 ≠ p := fun e => h.1 e.symm
    simp [ha, ih h.2]

theorem since_append (w : World) (scanners : List (Nat × YYGuts)) (l : List Event) :
    w.since { scanners := scanners, log := w.log ++ l } = l := by
  simp [World.since]

/-! ## What one call of `AstParser::parse` does -/

/-- One call of `parse` returns 0, leaves the session and the live scanners as
they were, and logs four calls on one new handle. -/
theorem parse_eq (g : AstParserSupport) (self : AstParser) (filename : String) (w : World) :
    self.parse g filename w =
      some (0, self,
        { scanners := w.scanners,
          log := w.log ++
            [Event.lexInit w.fresh, Event.setLineno 1 w.fresh,
             Event.grammar w.fresh { g.yy_init_globals with yylineno := 1 }
               (g.astparse { g.yy_init_globals with yylineno := 1 }).1
               (g.astparse { g.yy_init_globals with yylineno := 1 }).2,
             Event.lexDestroy w.fresh] }) := by
  have hf : w.fresh ∉ w.scanners.map Prod.fst := fresh_not_mem w.scanners
  simp only [AstParser.parse, astlex_init, astset_lineno, astparse, astlex_destroy,
    List.map_cons, List.lookup_cons, if_true, beq_self_eq_true]
  rw [map_update_of_not_mem w.scanners w.fresh _ hf, map_update_of_not_mem w.scanners w.fresh _ hf,
    List.filter_cons_of_neg (by simp), filter_ne_of_not_mem _ _ hf]
  simp only [List.append_assoc, List.singleton_append, List.cons_append, List.nil_append]

theorem parseAll_session (g : AstParserSupport) (self : AstParser) (fs : List String) :
    ∀ w : World, ∃ w1, self.parseAll g w fs = some (self, w1) := by
  induction fs with
  | nil => intro w; exact ⟨w, rfl⟩
  | cons f t ih =>
    intro w
    simp only [AstParser.parseAll, parse_eq]
    exact ih _

/-! ## `AstParser::parse`: the claims -/

/-- Claim C10: for every argument and every grammar pass, both overloads of
`AstParser::parse` return 0, whatever status the grammar pass reported. -/
theorem parse_returns_zero (g : AstParserSupport) (self : AstParser) (filename : String)
    (name : StdString) (w : World) :
    (self.parse g filename w).map Prod.fst = some 0 ∧
    (self.parseS g name w).map Prod.fst = some 0 := by
  simp [AstParser.parseS, parse_eq]

/-- Claim C1, as stated, fails at the call `parse("a.q")` on a new session with a
grammar pass that reports failure: the grammar pass reports the non-zero status 1
in that call, and the value returned by `parse` is not different from 0. -/
theorem parse_failure_not_signalled :
    ∃ rc s1 w1,
      AstParser.new.parse failingSupport "a.q" World.empty = some (rc, s1, w1) ∧
      ((∃ r ∈ grammarStatuses (World.empty.since w1), r ≠ 0) ∨ s1.getErrorCount ≠ 0) ∧
      ¬ (rc ≠ 0) := by
  refine ⟨0, AstParser.new, _, parse_eq failingSupport AstParser.new "a.q" World.empty,
    Or.inl ?_, by decide⟩
  rw [since_append]
  exact ⟨1, by simp [grammarStatuses, grammarCalls, failingSupport], by decide⟩

/-- Claim C1, amended: when the grammar pass reports failure on the scanner state it
is handed, `parse` still returns 0; the failed status is in the log of the call and
nowhere in the returned value. -/
theorem parse_returns_zero_on_failure (g : AstParserSupport) (self : AstParser)
    (filename : String) (w : World)
    (hfail : (g.astparse { g.yy_init_globals with yylineno := 1 }).1 ≠ 0) :
    ∃ w1, self.parse g filename w = some (0, self, w1) ∧
      ∃ r ∈ grammarStatuses (w.since w1), r ≠ 0 := by
  refine ⟨_, parse_eq g self filename w, ?_⟩
  rw [since_append]
  exact ⟨_, by simp [grammarStatuses, grammarCalls], hfail⟩

/-- The amended claim C1 at a grammar pass that always fails. -/
theorem parse_returns_zero_on_failure_witness :
    (failingSupport.astparse { failingSupport.yy_init_globals with yylineno := 1 }).1 ≠ 0 ∧
    ∃ w1, AstParser.new.parse failingSupport "a.q" World.empty = some (0, AstParser.new, w1) ∧
      ∃ r ∈ grammarStatuses (World.empty.since w1), r ≠ 0 :=
  ⟨by decide, parse_returns_zero_on_failure failingSupport AstParser.new "a.q" World.empty
    (by decide)⟩

/-- Claim C2 fails on the code: for any two arguments, `"a.q"` and `"b.q"` among them,
the two calls of `parse` do the same thing; the argument reaches no call on the
scanner, and the state handed to the grammar pass has the input buffer a newly
initialised scanner has, not the source named by the argument. -/
theorem parse_ignores_source (g : AstParserSupport) (self : AstParser)
    (filename1 filename2 : String) (w : World) :
    ∃ w1 handed,
      self.parse g filename1 w = some (0, self, w1) ∧
      self.parse g filename2 w = some (0, self, w1) ∧
      handedStates (w.since w1) = [handed] ∧
      handed.buffer = g.yy_init_globals.buffer :=
  ⟨_, { g.yy_init_globals with yylineno := 1 }, parse_eq g self filename1 w,
    parse_eq g self filename2 w, by rw [since_append]; rfl, rfl⟩

/-- Claim C3: one call of `parse` creates one scanner state, on a handle that was not
live, and destroys that same state once, as the last call on it and after the
grammar pass; the live scanner states after the call are those before it. -/
theorem parse_lexer_lifetime (g : AstParserSupport) (self : AstParser) (filename : String)
    (w : World) :
    w.fresh ∉ w.live ∧
    ∃ w1 handed rc left,
      self.parse g filename w = some (0, self, w1) ∧
      w.since w1 =
        [Event.lexInit w.fresh, Event.setLineno 1 w.fresh,
         Event.grammar w.fresh handed rc left, Event.lexDestroy w.fresh] ∧
      w1.scanners = w.scanners ∧ w1.live = w.live :=
  ⟨fresh_not_mem w.scanners, _, _, _, _, parse_eq g self filename w, since_append _ _ _, rfl, rfl⟩

/-- Claim C4: in every call of `parse` the line number is set to 1 after the scanner
is initialised and before the grammar pass runs, and the state handed to the
grammar pass is the newly initialised one with line number 1. -/
theorem parse_starts_at_line_one (g : AstParserSupport) (self : AstParser)
    (filename : String) (w : World) :
    ∃ w1 lexer handed rc left,
      self.parse g filename w = some (0, self, w1) ∧
      w.since w1 =
        [Event.lexInit lexer, Event.setLineno 1 lexer,
         Event.grammar lexer handed rc left, Event.lexDestroy lexer] ∧
      handed = { g.yy_init_globals with yylineno := 1 } ∧ handed.yylineno = 1 :=
  ⟨_, _, _, _, _, parse_eq g self filename w, since_append _ _ _, rfl, rfl⟩

/-- Claim C7: two calls of `parse` on the same source, with any parses in between, on
any session and in any world, return the same status, leave the same tree and the
same error list in the session, and hand the grammar pass the same newly
initialised scanner state, so that the grammar pass reports the same outcome. -/
theorem parse_stateless (g : AstParserSupport) (self : AstParser) (filename : String)
    (between : List String) (w : World) :
    ∃ rc1 s1 w1 s2 w2 rc3 s3 w3,
      self.parse g filename w = some (rc1, s1, w1) ∧
      s1.parseAll g w1 between = some (s2, w2) ∧
      s2.parse g filename w2 = some (rc3, s3, w3) ∧
      rc1 = rc3 ∧ s1.tree = s3.tree ∧ s1.errors = s3.errors ∧
      handedStates (w.since w1) = [{ g.yy_init_globals with yylineno := 1 }] ∧
      handedStates (w2.since w3) = [{ g.yy_init_globals with yylineno := 1 }] ∧
      grammarCalls (w.since w1) = grammarCalls (w2.since w3) := by
  obtain ⟨w2, h2⟩ := parseAll_session g self between
    { scanners := w.scanners,
      log := w.log ++
        [Event.lexInit w.fresh, Event.setLineno 1 w.fresh,
         Event.grammar w.fresh { g.yy_init_globals with yylineno := 1 }
           (g.astparse { g.yy_init_globals with yylineno := 1 }).1
           (g.astparse { g.yy_init_globals with yylineno := 1 }).2,
         Event.lexDestroy w.fresh] }
  refine ⟨0, self, _, self, w2, 0, self, _, parse_eq g self filename w, h2,
    parse_eq g self filename w2, rfl, rfl, rfl, ?_, ?_, ?_⟩
  · rw [since_append]; rfl
  · rw [since_append]; rfl
  · rw [since_append, since_append]; rfl

/-- Claim C9: on a new session, after any earlier parses, `parse("")` returns 0 and
leaves the session with an empty tree (no root) and an error count of 0. -/
theorem parse_empty_input (g : AstParserSupport) (before : List String) (w : World) :
    ∃ s1 w1 s2 w2,
      AstParser.new.parseAll g w before = some (s1, w1) ∧
      s1.parse g "" w1 = some (0, s2, w2) ∧
      s2.root = none ∧ s2.getTreePtr = none ∧ s2.getErrorCount = 0 := by
  obtain ⟨w1, h1⟩ := parseAll_session g AstParser.new before w
  exact ⟨AstParser.new, w1, AstParser.new, _, h1, parse_eq g AstParser.new "" w1, rfl, rfl, rfl⟩

/-! ## `AstParserHolder`: auxiliary facts -/

theorem sessions_store (m : Memory) (p : Nat) (s : AstParser) (w : World) :
    (m.store p s w).sessions = m.sessions := by
  simp only [Memory.store, Memory.sessions, List.map_map]
  apply List.map_congr_left
  intro e _
  by_cases h : e.1 = p <;> simp [h]

theorem lookup_isSome_iff (l : List (Nat × AstParser)) (p : Nat) :
    (l.lookup p).isSome = true ↔ p ∈ l.map Prod.fst := by
  induction l with
  | nil => simp
  | cons a t ih =>
    obtain ⟨k, v⟩ := a
    by_cases h : p = k
    · subst h; simp [List.lookup_cons]
    · have hb : (p == k) = false := by simpa using h
      simp [List.lookup_cons, hb, ih, h]

theorem lookup_store_isSome (m : Memory) (p : Nat) (s : AstParser) (w : World)
    (h : (m.heap.lookup p).isSome = true) : ((m.store p s w).heap.lookup p).isSome = true := by
  rw [lookup_isSome_iff] at h ⊢
  have := sessions_store m p s w
  simp only [Memory.sessions] at this
  rw [this]; exact h

theorem arrow_of_live {α : Type} (m : Memory) (p : Nat) (method : Method α) (s : AstParser)
    (h : m.heap.lookup p = some s) :
    m.arrow p method =
      some ((method s m.world).1, m.store p (method s m.world).2.1 (method s m.world).2.2) := by
  simp [Memory.arrow, h]

theorem forwarded_keeps_session {α : Type} (self : AstParserHolder) (m : Memory)
    (method : Method α) (h : (m.heap.lookup self.parser).isSome = true) :
    ∃ m1, ((m.arrow self.parser method).map (fun r => (r.1, self, r.2))).map Prod.snd
        = some (self, m1) ∧ m1.sessions = m.sessions ∧
      (m1.heap.lookup self.parser).isSome = true := by
  obtain ⟨s, hs⟩ := Option.isSome_iff_exists.mp h
  rw [arrow_of_live m self.parser method s hs]
  exact ⟨_, rfl, sessions_store _ _ _ _, lookup_store_isSome _ _ _ _ h⟩

theorem call_keeps_session (ops : AstParserOps) (self : AstParserHolder) (m : Memory)
    (c : HolderCall) (h : (m.heap.lookup self.parser).isSome = true) :
    ∃ m1, self.call ops m c = some (self, m1) ∧ m1.sessions = m.sessions ∧
      (m1.heap.lookup self.parser).isSome = true := by
  cases c with
  | parseFile f => exact forwarded_keeps_session self m (ops.parseFile f) h
  | parseFileS f => exact forwarded_keeps_session self m (ops.parseFileS f) h
  | parseString f => exact forwarded_keeps_session self m (ops.parseString f) h
  | parseStringS f => exact forwarded_keeps_session self m (ops.parseStringS f) h
  | findNode line col => exact forwarded_keeps_session self m (ops.findNode line col) h
  | getTreePtr => exact forwarded_keeps_session self m ops.getTreePtr h
  | releaseTree => exact forwarded_keeps_session self m ops.releaseTree h
  | getErrorCount =>
    obtain ⟨s, hs⟩ := Option.isSome_iff_exists.mp h
    exact ⟨m, by simp [AstParserHolder.call, AstParserHolder.getErrorCount, hs], rfl, h⟩
  | getError index => exact forwarded_keeps_session self m (ops.getError index) h

theorem sessions_delete (self : AstParserHolder) (m : Memory) :
    (self.delete m).sessions = m.sessions.filter (fun p => p ≠ self.parser) := by
  simp only [AstParserHolder.delete, Memory.sessions, List.filter_map]
  rfl

theorem filter_ne_self_of_not_mem (l : List Nat) (p : Nat) (h : p ∉ l) :
    l.filter (fun q => q ≠ p) = l := by
  induction l with
  | nil => rfl
  | cons a t ih =>
    simp only [List.mem_cons, not_or] at h
    have ha : a ≠ p := fun e => h.1 e.symm
    rw [List.filter_cons_of_pos (by simpa using ha), ih h.2]

theorem run_keeps_session (ops : AstParserOps) (self : AstParserHolder) (calls : List HolderCall) :
    ∀ m : Memory, (m.heap.lookup self.parser).isSome = true →
      ∃ m1, self.run ops m calls = some (self, m1) ∧ m1.sessions = m.sessions ∧
        (m1.heap.lookup self.parser).isSome = true := by
  induction calls with
  | nil => intro m h; exact ⟨m, rfl, rfl, h⟩
  | cons c t ih =>
    intro m h
    obtain ⟨m1, h1, h2, h3⟩ := call_keeps_session ops self m c h
    obtain ⟨m2, k1, k2, k3⟩ := ih m1 h3
    exact ⟨m2, by simp only [AstParserHolder.run, h1, k1], k2.trans h2, k3⟩

theorem lookup_store_of_live (m : Memory) (p : Nat) (s0 s : AstParser) (w : World)
    (h : m.heap.lookup p = some s0) : (m.store p s w).heap.lookup p = some s := by
  simp only [Memory.store]
  generalize m.heap = l at h
  induction l with
  | nil => simp at h
  | cons a t ih =>
    obtain ⟨k, v⟩ := a
    by_cases hk : p = k
    · subst hk; simp [List.lookup_cons]
    · have hb : (p == k) = false := by simpa using hk
      have hk2 : ¬ k = p := fun e => hk e.symm
      simp only [List.lookup_cons, hb] at h
      simp only [List.map_cons, hk2, if_false, List.lookup_cons, hb]
      exact ih h

/-! ## `AstParserHolder`: the claims -/

/-- Claim C5: every member function of `AstParserHolder` returns what the same-named
member of the session at `parser` returns on the same arguments, leaves the holder
as it was, and changes nothing but that session (and what the session's member
does to the scanner world); with no session at `parser` there is no result. -/
theorem holder_delegates (ops : AstParserOps) (self : AstParserHolder) (m : Memory)
    (filename : String) (name : StdString) (line col : Int) (index : Nat) :
    self.parseFile ops filename m = (m.heap.lookup self.parser).map (fun s =>
      ((ops.parseFile filename s m.world).1, self,
        m.store self.parser (ops.parseFile filename s m.world).2.1
          (ops.parseFile filename s m.world).2.2)) ∧
    self.parseFileS ops name m = (m.heap.lookup self.parser).map (fun s =>
      ((ops.parseFileS name s m.world).1, self,
        m.store self.parser (ops.parseFileS name s m.world).2.1
          (ops.parseFileS name s m.world).2.2)) ∧
    self.parseString ops filename m = (m.heap.lookup self.parser).map (fun s =>
      ((ops.parseString filename s m.world).1, self,
        m.store self.parser (ops.parseString filename s m.world).2.1
          (ops.parseString filename s m.world).2.2)) ∧
    self.parseStringS ops name m = (m.heap.lookup self.parser).map (fun s =>
      ((ops.parseStringS name s m.world).1, self,
        m.store self.parser (ops.parseStringS name s m.world).2.1
          (ops.parseStringS name s m.world).2.2)) ∧
    self.findNode ops line col m = (m.heap.lookup self.parser).map (fun s =>
      ((ops.findNode line col s m.world).1, self,
        m.store self.parser (ops.findNode line col s m.world).2.1
          (ops.findNode line col s m.world).2.2)) ∧
    self.getTreePtr ops m = (m.heap.lookup self.parser).map (fun s =>
      ((ops.getTreePtr s m.world).1, self,
        m.store self.parser (ops.getTreePtr s m.world).2.1 (ops.getTreePtr s m.world).2.2)) ∧
    self.releaseTree ops m = (m.heap.lookup self.parser).map (fun s =>
      ((ops.releaseTree s m.world).1, self,
        m.store self.parser (ops.releaseTree s m.world).2.1 (ops.releaseTree s m.world).2.2)) ∧
    self.getErrorCount ops m = (m.heap.lookup self.parser).map (fun s => ops.getErrorCount s) ∧
    self.getError ops index m = (m.heap.lookup self.parser).map (fun s =>
      ((ops.getError index s m.world).1, self,
        m.store self.parser (ops.getError index s m.world).2.1
          (ops.getError index s m.world).2.2)) := by
  cases hs : m.heap.lookup self.parser with
  | none =>
    simp [AstParserHolder.parseFile, AstParserHolder.parseFileS, AstParserHolder.parseString,
      AstParserHolder.parseStringS, AstParserHolder.findNode, AstParserHolder.getTreePtr,
      AstParserHolder.releaseTree, AstParserHolder.getErrorCount, AstParserHolder.getError,
      Memory.arrow, hs]
  | some s =>
    simp [AstParserHolder.parseFile, AstParserHolder.parseFileS, AstParserHolder.parseString,
      AstParserHolder.parseStringS, AstParserHolder.findNode, AstParserHolder.getTreePtr,
      AstParserHolder.releaseTree, AstParserHolder.getErrorCount, AstParserHolder.getError,
      arrow_of_live m self.parser _ s hs, hs]

/-- Claim C6: the constructor creates one session, at an address where none lived,
and stores it in `parser`; any sequence of calls on the holder runs through with
`parser` unchanged, the same sessions alive and the holder's own among them; the
destructor destroys that session and no other. -/
theorem holder_bound_to_one_session (ops : AstParserOps) (m : Memory)
    (calls : List HolderCall) :
    (AstParserHolder.new ops m).1.parser ∉ m.sessions ∧
    (AstParserHolder.new ops m).2.sessions = (AstParserHolder.new ops m).1.parser :: m.sessions ∧
    (AstParserHolder.new ops m).2.heap.lookup (AstParserHolder.new ops m).1.parser
      = some ops.ctor ∧
    ∃ m1,
      (AstParserHolder.new ops m).1.run ops (AstParserHolder.new ops m).2 calls
        = some ((AstParserHolder.new ops m).1, m1) ∧
      m1.sessions = (AstParserHolder.new ops m).2.sessions ∧
      (m1.heap.lookup (AstParserHolder.new ops m).1.parser).isSome = true ∧
      ((AstParserHolder.new ops m).1.delete m1).sessions = m.sessions := by
  have hf : m.fresh ∉ m.heap.map Prod.fst := fresh_not_mem m.heap
  have hl : (AstParserHolder.new ops m).2.heap.lookup (AstParserHolder.new ops m).1.parser
      = some ops.ctor := by
    simp [AstParserHolder.new, List.lookup_cons]
  obtain ⟨m1, h1, h2, h3⟩ := run_keeps_session ops (AstParserHolder.new ops m).1 calls
    (AstParserHolder.new ops m).2 (by rw [hl]; rfl)
  refine ⟨hf, rfl, hl, m1, h1, h2, h3, ?_⟩
  rw [sessions_delete, h2]
  show List.filter _ (m.fresh :: m.sessions) = m.sessions
  rw [List.filter_cons_of_neg (by simp [AstParserHolder.new])]
  exact filter_ne_self_of_not_mem _ _ hf

/-- Claim C8: with the session's `getError` as the spec describes it, the holder's
`getError` at an index that is not smaller than the holder's `getErrorCount()`
hands the caller the out-of-range error, naming the index as given; it returns
no error record, and the holder and its session stay as they were. -/
theorem holder_getError_out_of_range (g : AstParserSupport) (self : AstParserHolder)
    (m : Memory) (index count : Nat)
    (hcount : self.getErrorCount (AstParserOps.ofSupport g) m = some count)
    (hindex : count ≤ index) :
    ∃ m1, self.getError (AstParserOps.ofSupport g) index m
        = some (Except.error (UsageError.indexOutOfRange index count), self, m1) ∧
      (m1.heap.lookup self.parser).map AstParser.getErrorCount = some count := by
  cases hs : m.heap.lookup self.parser with
  | none => simp [AstParserHolder.getErrorCount, hs] at hcount
  | some s =>
    simp only [AstParserHolder.getErrorCount, hs, AstParserOps.ofSupport, Option.map_some',
      Option.some.injEq] at hcount
    have hlen : s.errors.length = count := hcount
    have hg : s.errors[index]? = none := List.getElem?_eq_none (by omega)
    refine ⟨m.store self.parser s m.world, ?_, ?_⟩
    · simp [AstParserHolder.getError, arrow_of_live m self.parser _ s hs, AstParserOps.ofSupport,
        AstParser.getError, hg, hlen]
    · rw [lookup_store_of_live m self.parser s s m.world hs]
      simp [AstParser.getErrorCount, hlen]

/-- Claim C8 on a holder that has just been constructed: its error count is 0, and
`getError(0)` hands back the out-of-range error. -/
theorem holder_getError_out_of_range_witness :
    (AstParserHolder.new (AstParserOps.ofSupport failingSupport)
        { heap := [], world := World.empty }).1.getErrorCount
      (AstParserOps.ofSupport failingSupport)
      (AstParserHolder.new (AstParserOps.ofSupport failingSupport)
        { heap := [], world := World.empty }).2 = some 0 ∧
    0 ≤ 0 ∧
    ∃ m1, (AstParserHolder.new (AstParserOps.ofSupport failingSupport)
        { heap := [], world := World.empty }).1.getError
        (AstParserOps.ofSupport failingSupport) 0
        (AstParserHolder.new (AstParserOps.ofSupport failingSupport)
          { heap := [], world := World.empty }).2
        = some (Except.error (UsageError.indexOutOfRange 0 0),
            (AstParserHolder.new (AstParserOps.ofSupport failingSupport)
              { heap := [], world := World.empty }).1, m1) ∧
      (m1.heap.lookup (AstParserHolder.new (AstParserOps.ofSupport failingSupport)
        { heap := [], world := World.empty }).1.parser).map AstParser.getErrorCount = some 0 :=
  ⟨rfl, le_refl 0, holder_getError_out_of_range failingSupport _ _ 0 0 rfl (le_refl 0)⟩

end Qls
